import Mathlib

/-!
Verification of the dataset versioning and ingestion engine of the Phoenix
repository, as exposed by `src/phoenix/server/api/routers/v1/datasets.py` and
`src/phoenix/server/api/routers/v1/experiment_evaluations.py`.

The snapshot reconstruction is a shallow embedding of the SQL statement built
in `_get_dataset_download_csv` (the `latest_version` grouped subquery with its
`rank() - 1` example index, the join back to `dataset_example_revisions`, the
`revision_kind != DELETE` filter and the ordering by example id).  Upload
validation embeds `_process_csv`, `_check_keys_exist`, the overlap checks of
`_parse_form_data`, and the `FileContentType` / `FileContentEncoding` enums
with their lowercase-retrying `_missing_` classmethods (modelled with explicit
fuel, since the retry re-enters the enum constructor).  Parts of the system
that live outside the provided sources (the bounded admission queue behind
`request.state.enqueue_operation`, and `insert_on_conflict`) are modelled from
the specification and marked as such.
-/

namespace Phoenix

/-- The `revision_kind` column of `dataset_example_revisions`. -/
inductive RevisionKind where
  | CREATE
  | PATCH
  | DELETE
deriving DecidableEq

/-- One row of `dataset_example_revisions`.  The `input`, `output` and
`metadata` payloads are opaque structured documents, modelled as association
lists from string keys to opaque values. -/
structure Revision where
  exampleId : Nat
  versionId : Nat
  kind : RevisionKind
  input : List (String × Nat)
  output : List (String × Nat)
  metadata : List (String × Nat)
deriving DecidableEq

/-- The relational state read by the dataset router: `datasets` as (id, name),
`dataset_examples` as (id, dataset_id), `dataset_versions` as
(id, dataset_id), and `dataset_example_revisions`. -/
structure DB where
  datasets : List (Nat × String)
  examples : List (Nat × Nat)
  versions : List (Nat × Nat)
  revisions : List Revision
deriving DecidableEq

/-- Python dict merge: in a literal that splats `a` and then `b`, entries of
`b` override entries of `a` that share a key.  Association-list model keeping
lookup semantics: a key found in `b` resolves to the value from `b`. -/
def pyDictMerge (a b : List (String × Nat)) : List (String × Nat) :=
  a.filter (fun kv => !(b.any (fun kv2 => kv2.1 == kv.1))) ++ b

/-- The record dict built per streamed row in `_get_dataset_download_csv`:
metadata, then input, then output are splatted in that order, and the
`__example_index__` entry is added last. -/
def mkRecord (metadata input output : List (String × Nat)) (idx : Nat) : List (String × Nat) :=
  pyDictMerge (pyDictMerge (pyDictMerge metadata input) output) [("__example_index__", idx)]

/-- The join of `dataset_example_revisions` with `dataset_examples` filtered by
`dataset_examples.dataset_id == dataset_id`: whether example `e` belongs to
dataset `did`. -/
def belongsB (db : DB) (did e : Nat) : Bool :=
  db.examples.any (fun p => p.1 == e && p.2 == did)

/-- The optional `dataset_version_id <= max_dataset_version_id` filter of the
`latest_version` subquery (present exactly when an explicit version id is in
the request path). -/
def qualifiesB (ceil : Option Nat) (r : Revision) : Bool :=
  match ceil with
  | none => true
  | some v => decide (r.versionId ≤ v)

/-- The rows scanned by the `latest_version` subquery: revisions of examples of
the requested dataset, restricted by the optional version ceiling. -/
def revisionPool (db : DB) (did : Nat) (ceil : Option Nat) : List Revision :=
  db.revisions.filter (fun r => belongsB db did r.exampleId && qualifiesB ceil r)

/-- The example ids grouped by the `latest_version` subquery, in the order
imposed by `rank() over (order by dataset_example_id)`: the distinct example
ids having at least one qualifying revision, ascending. -/
def snapshotIds (db : DB) (did : Nat) (ceil : Option Nat) : List Nat :=
  List.insertionSort (· ≤ ·) ((revisionPool db did ceil).map (fun r => r.exampleId)).dedup

/-- Maximum of a list of naturals, `none` on the empty list (the SQL `max`
aggregate). -/
def listMaxNat : List Nat → Option Nat
  | [] => none
  | v :: t =>
    match listMaxNat t with
    | none => some v
    | some m => some (max v m)

/-- The `max(dataset_version_id)` aggregate of the `latest_version` subquery for
the group of example `e`. -/
def maxVer (db : DB) (did : Nat) (ceil : Option Nat) (e : Nat) : Option Nat :=
  listMaxNat
    (((revisionPool db did ceil).filter (fun r => r.exampleId == e)).map (fun r => r.versionId))

/-- The revision selected for example `e` at the given ceiling: the revision
row carrying the group's maximal qualifying version id. -/
def latestRev (db : DB) (did : Nat) (ceil : Option Nat) (e : Nat) : Option Revision :=
  match maxVer db did ceil e with
  | none => none
  | some v => db.revisions.find? (fun r => r.exampleId == e && r.versionId == v)

/-- The revision rows produced for example `e` by the outer statement: the join
of `dataset_example_revisions` back onto the subquery on
(dataset_example_id, dataset_version_id), filtered by
`revision_kind != DELETE`. -/
def selectedRevs (db : DB) (did : Nat) (ceil : Option Nat) (e : Nat) : List Revision :=
  db.revisions.filter (fun r =>
    r.exampleId == e && maxVer db did ceil e == some r.versionId
      && !(r.kind == RevisionKind.DELETE))

/-- The `rank() over (order by dataset_example_id) - 1` value for the group of
example `e`: its zero-based position among the grouped example ids. -/
def exampleIndex (db : DB) (did : Nat) (ceil : Option Nat) (e : Nat) : Nat :=
  (snapshotIds db did ceil).indexOf e

/-- One streamed record of the CSV export: the merged payload dict, together
with the `example_index` column selected from the subquery. -/
structure Row where
  record : List (String × Nat)
  index : Nat
deriving DecidableEq

/-- Builds the streamed record for example `e` from its selected revision. -/
def mkRow (db : DB) (did : Nat) (ceil : Option Nat) (e : Nat) (r : Revision) : Row :=
  { record := mkRecord r.metadata r.input r.output (exampleIndex db did ceil e)
    index := exampleIndex db did ceil e }

/-- The full result set of the outer statement, ordered by
`dataset_example_id`. -/
def snapshotRows (db : DB) (did : Nat) (ceil : Option Nat) : List Row :=
  (snapshotIds db did ceil).flatMap (fun e => (selectedRevs db did ceil e).map (mkRow db did ceil e))

/-- Whether example `e` contributes at least one record to the snapshot. -/
def presentExample (db : DB) (did : Nat) (ceil : Option Nat) (e : Nat) : Bool :=
  decide (e ∈ snapshotIds db did ceil) && !(selectedRevs db did ceil e).isEmpty

/-- The two `404` classifications of `_get_dataset_download_csv`. -/
inductive DownloadErr where
  | datasetNotFound
  | noExamples
deriving DecidableEq

/-- The query `select(models.Dataset.name).where(models.Dataset.id == dataset_id)`. -/
def findName (db : DB) (did : Nat) : Option String :=
  (db.datasets.find? (fun p => p.1 == did)).map (fun p => p.2)

/-- Python falsiness of the scalar result: `if not dataset_name` is taken both
when the row is missing and when the stored name is the empty string. -/
def nameFalsy : Option String → Bool
  | none => true
  | some s => s == ""

/-- The `_get_dataset_download_csv` endpoint from the dataset id on: 404 when
the dataset row is missing (or its name is falsy), 404 when the reconstructed
snapshot is empty, otherwise the snapshot records. -/
def get_dataset_download_csv (db : DB) (did : Nat) (ceil : Option Nat) :
    Except DownloadErr (List Row) :=
  if nameFalsy (findName db did) then .error .datasetNotFound
  else if (snapshotRows db did ceil).isEmpty then .error .noExamples
  else .ok (snapshotRows db did ceil)

/-- Well-formed revision log: the table has no duplicate rows and, per the data
model invariant, no two revisions of the same example share a version id. -/
def WF (db : DB) : Prop :=
  db.revisions.Nodup ∧
    ∀ r ∈ db.revisions, ∀ s ∈ db.revisions,
      r.exampleId = s.exampleId → r.versionId = s.versionId → r = s

instance (db : DB) : Decidable (WF db) := by unfold WF; infer_instance

instance {ε α : Type} [DecidableEq ε] [DecidableEq α] : DecidableEq (Except ε α) :=
  fun x y =>
    match x, y with
    | .error a, .error b =>
      if h : a = b then isTrue (by rw [h]) else isFalse (by intro hc; cases hc; exact h rfl)
    | .ok a, .ok b =>
      if h : a = b then isTrue (by rw [h]) else isFalse (by intro hc; cases hc; exact h rfl)
    | .error _, .ok _ => isFalse (by intro hc; cases hc)
    | .ok _, .error _ => isFalse (by intro hc; cases hc)

/-- A stored `experiment_run_annotations` row, reduced to its constraint key
(experiment_run_id, name) and representative value fields. -/
structure AnnotationRow where
  experimentRunId : Nat
  name : String
  label : String
  score : Nat
deriving DecidableEq

/-- The uniqueness constraint
`uq_experiment_run_annotations_experiment_run_id_name`. -/
def keyMatches (a b : AnnotationRow) : Bool :=
  a.experimentRunId == b.experimentRunId && a.name == b.name

/-- The `DO UPDATE` of the upsert: the stored row keeps its constraint key and
takes the incoming value fields. -/
def applyUpdate (old upd : AnnotationRow) : AnnotationRow :=
  { experimentRunId := old.experimentRunId, name := old.name
    label := upd.label, score := upd.score }

/-- Modelled from the spec: `insert_on_conflict` (phoenix.db.insertion.helpers)
is not under `src/`.  Per section 4.5 of the specification, on first write for
the constraint key the values are inserted; on a key collision the existing
row is instead updated with the new values, and the resulting stored row is
returned (the caller `upsert_experiment_evaluation` passes the same values for
insert and update). -/
def upsert (table : List AnnotationRow) (v : AnnotationRow) :
    List AnnotationRow × AnnotationRow :=
  match table.find? (fun t => keyMatches t v) with
  | none => (table ++ [v], v)
  | some t =>
    (table.map (fun u => if keyMatches u v then applyUpdate u v else u), applyUpdate t v)

/-- Iteration order of `collections.Counter` keys: first occurrence order. -/
def pyCounterKeys (l : List String) : List String :=
  l.foldl (fun acc x => if x ∈ acc then acc else acc ++ [x]) []

/-- One step of selecting the most common element: keep the earlier key unless
a strictly larger count appears (`Counter.most_common` is stable). -/
def bestCount (l : List String) (best : Option (String × Nat)) (k : String) :
    Option (String × Nat) :=
  match best with
  | none => some (k, l.count k)
  | some (k0, n0) => if n0 < l.count k then some (k, l.count k) else some (k0, n0)

/-- The call `Counter(fieldnames).most_common(1)` reduced to its head element. -/
def pyMostCommon1 (l : List String) : Option (String × Nat) :=
  (pyCounterKeys l).foldl (bestCount l) none

/-- The header validation of `_process_csv`: the uploaded file is modelled as
its parsed rows; `fieldnames` is the first row and is `None` when the file is
empty.  Raises on a missing header and on a duplicated column header. -/
def process_csv (rows : List (List String)) : Except String (List String) :=
  match rows.head? with
  | none => .error "Missing CSV column header"
  | some fields =>
    match pyMostCommon1 fields with
    | none => .error "not enough values to unpack"
    | some (h, n) =>
      if 1 < n then .error ("Duplicated column header in CSV file: " ++ h)
      else .ok fields

/-- Frozenset intersection on the list-as-set model. -/
def setInter (a b : List String) : List String := a.filter (fun x => b.contains x)

/-- Frozenset difference on the list-as-set model. -/
def setDiff (a b : List String) : List String := a.filter (fun x => !(b.contains x))

/-- The three pairwise overlap checks of `_parse_form_data`. -/
def checkRoleOverlap (inputKeys outputKeys metadataKeys : List String) : Except String Unit :=
  if !(setInter inputKeys outputKeys).isEmpty then
    .error "input_keys, output_keys have overlap"
  else if !(setInter inputKeys metadataKeys).isEmpty then
    .error "input_keys and metadata_keys have overlap"
  else if !(setInter outputKeys metadataKeys).isEmpty then
    .error "output_keys and metadata_keys have overlap"
  else .ok ()

/-- The `_check_keys_exist` validation: each requested role set must be contained in the
discovered column headers, checked for input, then output, then metadata. -/
def check_keys_exist (columnHeaders inputKeys outputKeys metadataKeys : List String) :
    Except String Unit :=
  if !(setDiff inputKeys columnHeaders).isEmpty then
    .error "input keys not found in column headers"
  else if !(setDiff outputKeys columnHeaders).isEmpty then
    .error "output keys not found in column headers"
  else if !(setDiff metadataKeys columnHeaders).isEmpty then
    .error "metadata keys not found in column headers"
  else .ok ()

/-- Column-role validation as the upload path runs it: the overlap checks of
`_parse_form_data` followed by `_check_keys_exist`. -/
def roleValidation (columnHeaders inputKeys outputKeys metadataKeys : List String) :
    Except String Unit :=
  match checkRoleOverlap inputKeys outputKeys metadataKeys with
  | .error m => .error m
  | .ok _ => check_keys_exist columnHeaders inputKeys outputKeys metadataKeys

/-- The `FileContentType` enum values. -/
inductive FileContentType where
  | CSV
  | PYARROW
deriving DecidableEq

/-- The `FileContentEncoding` enum values. -/
inductive FileContentEncoding where
  | NONE
  | GZIP
  | DEFLATE
deriving DecidableEq

/-- Direct enum value lookup for `FileContentType`. -/
def ctValue? (s : String) : Option FileContentType :=
  if s = "text/csv" then some .CSV
  else if s = "application/x-pandas-pyarrow" then some .PYARROW
  else none

/-- Direct enum value lookup for `FileContentEncoding`. -/
def encValue? (s : String) : Option FileContentEncoding :=
  if s = "none" then some .NONE
  else if s = "gzip" then some .GZIP
  else if s = "deflate" then some .DEFLATE
  else none

/-- Python `str.isascii`. -/
def pyIsAscii (s : String) : Bool := s.toList.all (fun c => c.toNat < 128)

/-- Python `str.islower` restricted to ASCII strings: at least one cased
character and no uppercase character. -/
def pyIslower (s : String) : Bool :=
  s.toList.any (fun c => c.isLower) && !(s.toList.any (fun c => c.isUpper))

/-- Python `str.lower` restricted to ASCII strings. -/
def pyLower (s : String) : String := String.mk (s.toList.map Char.toLower)

/-- The guard of both `_missing_` classmethods:
`isinstance(v, str) and v and v.isascii() and not v.islower()`. -/
def missingGuard (s : String) : Bool := !(s == "") && pyIsAscii s && !(pyIslower s)

/-- The constructor `FileContentType(v)` with the `_missing_` lowercase retry.  The retry
re-enters the enum constructor, so termination is not structural: the `Nat`
fuel makes the recursion explicit, and a result of `none` means the call never
returns within that much recursion depth. -/
def parseFileContentType : Nat → String → Option (Except String FileContentType)
  | 0, _ => none
  | fuel + 1, v =>
    match ctValue? v with
    | some t => some (.ok t)
    | none =>
      if missingGuard v then parseFileContentType fuel (pyLower v)
      else some (.error ("Invalid file content type: " ++ v))

/-- The constructor `FileContentEncoding(v)` with the `_missing_` mapping of `None` to the
`none` member and the lowercase retry, fuelled like
`parseFileContentType`. -/
def parseFileContentEncoding : Nat → Option String → Option (Except String FileContentEncoding)
  | 0, _ => none
  | _ + 1, none => some (.ok .NONE)
  | fuel + 1, some v =>
    match encValue? v with
    | some e => some (.ok e)
    | none =>
      if missingGuard v then parseFileContentEncoding fuel (some (pyLower v))
      else some (.error ("Invalid file content encoding: " ++ v))

/-- The decompression step at the top of `_process_csv`, with the gzip and
deflate codecs abstracted: `NONE` passes the payload bytes through
unchanged. -/
def csvDecompress (enc : FileContentEncoding) (gz df : List Nat → List Nat)
    (content : List Nat) : List Nat :=
  match enc with
  | .GZIP => gz content
  | .DEFLATE => df content
  | .NONE => content

/-- The dataset upload actions. -/
inductive DatasetAction where
  | create
  | append
deriving DecidableEq

/-- A validated ingestion job as handed to the admission queue. -/
structure UploadJob where
  action : DatasetAction
  name : String
  rows : List (List String)
  inputKeys : List String
  outputKeys : List String
  metadataKeys : List String
deriving DecidableEq

/-- The HTTP-level outcomes of `post_datasets_upload` that the model covers. -/
inductive UploadOutcome where
  | accepted
  | unprocessable (msg : String)
  | tooManyRequests
deriving DecidableEq

/-- The observable state after one upload request: the response, the database,
the admission queue, and whether the open record generator was closed. -/
structure HandlerResult where
  outcome : UploadOutcome
  db : DB
  queue : List UploadJob
  closedGen : Bool
deriving DecidableEq

/-- Modelled from the spec: the bounded admission queue behind
`request.state.enqueue_operation` is not under `src/`.  Per sections 4.4 and 5
of the specification it is a fixed-capacity queue whose non-blocking put fails
immediately with a Capacity condition (`QueueFull`) when the queue is at
capacity, and otherwise appends the job. -/
def enqueueOp (cap : Nat) (queue : List UploadJob) (j : UploadJob) : Option (List UploadJob) :=
  if queue.length < cap then some (queue ++ [j]) else none

/-- The `post_datasets_upload` handler for the CSV path, from parsed form data
on: role-overlap checks, the create-name-conflict check, CSV header
validation, role-subset validation, then submission to the admission queue.
The database is only ever read here; writes happen in the background worker
after admission.  On `QueueFull` the handler closes the record generator and
answers 429. -/
def post_datasets_upload (db : DB) (cap : Nat) (queue : List UploadJob)
    (action : DatasetAction) (name : String) (rows : List (List String))
    (inputKeys outputKeys metadataKeys : List String) : HandlerResult :=
  match checkRoleOverlap inputKeys outputKeys metadataKeys with
  | .error m => ⟨.unprocessable m, db, queue, false⟩
  | .ok _ =>
    if action == DatasetAction.create && db.datasets.any (fun d => d.2 == name) then
      ⟨.unprocessable "Dataset already exists", db, queue, false⟩
    else
      match process_csv rows with
      | .error m => ⟨.unprocessable m, db, queue, false⟩
      | .ok fields =>
        match check_keys_exist fields inputKeys outputKeys metadataKeys with
        | .error m => ⟨.unprocessable m, db, queue, false⟩
        | .ok _ =>
          match enqueueOp cap queue ⟨action, name, rows, inputKeys, outputKeys, metadataKeys⟩ with
          | some q => ⟨.accepted, db, q, false⟩
          | none => ⟨.tooManyRequests, db, queue, true⟩

/-- Dataset 1 with one example (id 10) created at version 1 and deleted at
version 2. -/
def dbC1 : DB :=
  ⟨[(1, "d")], [(10, 1)], [(1, 1), (2, 1)],
    [⟨10, 1, .CREATE, [("q", 1)], [("a", 2)], [("t", 3)]⟩, ⟨10, 2, .DELETE, [], [], []⟩]⟩

/-- Dataset 1 with example 1 created at version 1 and deleted at version 2,
and example 2 created at version 1 and still live. -/
def dbC2 : DB :=
  ⟨[(1, "d")], [(1, 1), (2, 1)], [(1, 1), (2, 1)],
    [⟨1, 1, .CREATE, [("q", 1)], [], []⟩, ⟨1, 2, .DELETE, [], [], []⟩,
      ⟨2, 1, .CREATE, [("q", 2)], [], []⟩]⟩

/-- Dataset 1 with two live examples and no tombstones. -/
def dbC2w : DB :=
  ⟨[(1, "d")], [(1, 1), (2, 1)], [(1, 1)],
    [⟨1, 1, .CREATE, [("q", 1)], [], []⟩, ⟨2, 1, .CREATE, [("q", 2)], [], []⟩]⟩

/-- Dataset 1 with one live example and a single version with id 1; no version
with id 99 exists anywhere. -/
def dbC3 : DB := ⟨[(1, "d")], [(1, 1)], [(1, 1)], [⟨1, 1, .CREATE, [("a", 1)], [], []⟩]⟩

/-- The empty database. -/
def dbEmpty : DB := ⟨[], [], [], []⟩

/-- First evaluation write for run 1, name "accuracy". -/
def rowA : AnnotationRow := ⟨1, "accuracy", "good", 3⟩

/-- Second evaluation write for the same key with a different score. -/
def rowB : AnnotationRow := ⟨1, "accuracy", "bad", 5⟩

lemma mem_snapshotIds {db : DB} {did : Nat} {ceil : Option Nat} {e : Nat} :
    e ∈ snapshotIds db did ceil ↔ ∃ r ∈ revisionPool db did ceil, r.exampleId = e := by
  unfold snapshotIds
  rw [(List.perm_insertionSort _ _).mem_iff, List.mem_dedup, List.mem_map]

lemma nodup_snapshotIds (db : DB) (did : Nat) (ceil : Option Nat) :
    (snapshotIds db did ceil).Nodup := by
  unfold snapshotIds
  exact ((List.perm_insertionSort _ _).nodup_iff).mpr (List.nodup_dedup _)

lemma listMaxNat_eq_none_iff {l : List Nat} : listMaxNat l = none ↔ l = [] := by
  cases l with
  | nil => simp [listMaxNat]
  | cons v t =>
    simp only [listMaxNat]
    cases listMaxNat t <;> simp

lemma listMaxNat_mem {l : List Nat} {m : Nat} (h : listMaxNat l = some m) : m ∈ l := by
  induction l generalizing m with
  | nil => simp [listMaxNat] at h
  | cons v t ih =>
    simp only [listMaxNat] at h
    cases ht : listMaxNat t with
    | none =>
      rw [ht] at h
      simp only [Option.some.injEq] at h
      simp [← h]
    | some m' =>
      rw [ht] at h
      simp only [Option.some.injEq] at h
      rcases max_choice v m' with hc | hc
      · rw [hc] at h
        simp [← h]
      · rw [hc] at h
        exact List.mem_cons_of_mem _ (h ▸ ih ht)

lemma listMaxNat_ge {l : List Nat} {m : Nat} (h : listMaxNat l = some m) :
    ∀ x ∈ l, x ≤ m := by
  induction l generalizing m with
  | nil => simp
  | cons v t ih =>
    intro x hx
    simp only [listMaxNat] at h
    cases ht : listMaxNat t with
    | none =>
      rw [ht] at h
      simp only [Option.some.injEq] at h
      have : t = [] := listMaxNat_eq_none_iff.mp ht
      subst this
      simp only [List.mem_singleton] at hx
      omega
    | some m' =>
      rw [ht] at h
      simp only [Option.some.injEq] at h
      rcases List.mem_cons.mp hx with hx | hx
      · subst hx
        calc x ≤ max x m' := le_max_left _ _
          _ = m := h
      · calc x ≤ m' := ih ht x hx
          _ ≤ max v m' := le_max_right _ _
          _ = m := h

lemma maxVer_eq_none_iff {db : DB} {did : Nat} {ceil : Option Nat} {e : Nat} :
    maxVer db did ceil e = none ↔ ∀ r ∈ revisionPool db did ceil, r.exampleId ≠ e := by
  unfold maxVer
  rw [listMaxNat_eq_none_iff, List.map_eq_nil_iff, List.filter_eq_nil_iff]
  simp

lemma maxVer_spec {db : DB} {did : Nat} {ceil : Option Nat} {e v : Nat}
    (h : maxVer db did ceil e = some v) :
    (∃ r ∈ revisionPool db did ceil, r.exampleId = e ∧ r.versionId = v) ∧
      ∀ r ∈ revisionPool db did ceil, r.exampleId = e → r.versionId ≤ v := by
  unfold maxVer at h
  constructor
  · have hmem := listMaxNat_mem h
    simp only [List.mem_map, List.mem_filter, beq_iff_eq] at hmem
    obtain ⟨r, ⟨hr, hre⟩, hrv⟩ := hmem
    exact ⟨r, hr, hre, hrv⟩
  · intro r hr hre
    refine listMaxNat_ge h _ ?_
    simp only [List.mem_map, List.mem_filter, beq_iff_eq]
    exact ⟨r, ⟨hr, hre⟩, rfl⟩

lemma presentExample_iff {db : DB} {did : Nat} {ceil : Option Nat} {e : Nat} :
    presentExample db did ceil e = true ↔
      e ∈ snapshotIds db did ceil ∧ selectedRevs db did ceil e ≠ [] := by
  simp [presentExample, List.isEmpty_iff]

/-- C1: on a well-formed revision log, the CSV-export snapshot at version
ceiling `V` contains example `e` exactly when `e` has a qualifying revision
(version id at most `V`) and the qualifying revision with the greatest version
id is not a `DELETE`.  In particular an example whose greatest qualifying
revision at a ceiling is its `DELETE` tombstone is absent at that ceiling,
while at any smaller ceiling where the greatest qualifying revision is a
non-`DELETE` it is present, its earlier revision remaining readable. -/
theorem C1_snapshot_tombstone_semantics (db : DB) (did V e : Nat) (hwf : WF db) :
    presentExample db did (some V) e = true ↔
      ∃ r, latestRev db did (some V) e = some r ∧ r.kind ≠ RevisionKind.DELETE := by
  obtain ⟨hnd, huniq⟩ := hwf
  rw [presentExample_iff]
  constructor
  · rintro ⟨hid, hsel⟩
    obtain ⟨r, hrmem⟩ := List.exists_mem_of_ne_nil _ hsel
    rw [selectedRevs, List.mem_filter] at hrmem
    obtain ⟨hrdb, hpred⟩ := hrmem
    simp only [Bool.and_eq_true, beq_iff_eq, Bool.not_eq_true', beq_eq_false_iff_ne,
      ne_eq] at hpred
    obtain ⟨⟨hre, hmv⟩, hk⟩ := hpred
    have hlr : latestRev db did (some V) e =
        db.revisions.find? (fun s => s.exampleId == e && s.versionId == r.versionId) := by
      unfold latestRev
      rw [hmv]
    rw [hlr]
    have hfind : (db.revisions.find?
        (fun s => s.exampleId == e && s.versionId == r.versionId)).isSome := by
      rw [List.find?_isSome]
      exact ⟨r, hrdb, by simp [hre]⟩
    obtain ⟨r', hr'⟩ := Option.isSome_iff_exists.mp hfind
    have hr'db := List.mem_of_find?_eq_some hr'
    have hp := List.find?_some hr'
    simp only [Bool.and_eq_true, beq_iff_eq] at hp
    have : r' = r := huniq r' hr'db r hrdb (by rw [hp.1, hre]) hp.2
    exact ⟨r', hr', by rw [this]; exact hk⟩
  · rintro ⟨r, hlr, hk⟩
    unfold latestRev at hlr
    cases hmv : maxVer db did (some V) e with
    | none => rw [hmv] at hlr; cases hlr
    | some v =>
      rw [hmv] at hlr
      have hrdb := List.mem_of_find?_eq_some hlr
      have hp := List.find?_some hlr
      simp only [Bool.and_eq_true, beq_iff_eq] at hp
      obtain ⟨⟨s, hs, hse, _⟩, _⟩ := maxVer_spec hmv
      refine ⟨mem_snapshotIds.mpr ⟨s, hs, hse⟩, ?_⟩
      have : r ∈ selectedRevs db did (some V) e := by
        rw [selectedRevs, List.mem_filter]
        refine ⟨hrdb, ?_⟩
        simp only [Bool.and_eq_true, beq_iff_eq, Bool.not_eq_true', beq_eq_false_iff_ne,
          ne_eq]
        exact ⟨⟨hp.1, by rw [hmv, hp.2]⟩, hk⟩
      exact List.ne_nil_of_mem this

/-- Witness for C1: in `dbC1` (example 10 created at version 1, deleted at
version 2) the example is present at ceiling 1, its `CREATE` revision being
the selected one. -/
theorem C1_witness : presentExample dbC1 1 (some 1) 10 = true :=
  (C1_snapshot_tombstone_semantics dbC1 1 1 10 (by decide)).mpr
    ⟨⟨10, 1, .CREATE, [("q", 1)], [("a", 2)], [("t", 3)]⟩, by decide, by decide⟩

/-- C2 fails on the code: in `dbC2` the latest snapshot has a single surviving
record, but its `example_index` is 1, not 0 — the rank is computed in the
subquery before the `DELETE` filter of the outer query, so the tombstoned
example 1 still occupies rank 0 and the surviving indices are not the dense
sequence 0..n-1. -/
theorem C2_counterexample :
    (snapshotRows dbC2 1 none).map Row.index = [1] ∧
      (snapshotRows dbC2 1 none).length = 1 := by decide

lemma filter_eq_singleton_of_unique {α : Type} {l : List α} {p : α → Bool} {r : α}
    (hnd : l.Nodup) (hr : r ∈ l) (hpr : p r = true)
    (huniq : ∀ x ∈ l, p x = true → x = r) : l.filter p = [r] := by
  induction l with
  | nil => cases hr
  | cons a t ih =>
    rcases List.mem_cons.mp hr with hra | hrt
    · subst hra
      rw [List.filter_cons_of_pos hpr]
      have : t.filter p = [] := by
        rw [List.filter_eq_nil_iff]
        intro x hx hpx
        exact (List.nodup_cons.mp hnd).1 ((huniq x (List.mem_cons_of_mem _ hx) hpx) ▸ hx)
      rw [this]
    · have hpa : p a = false := by
        rcases h : p a with _ | _
        · rfl
        · exact absurd ((huniq a (List.mem_cons_self _ _) h) ▸ hrt) (List.nodup_cons.mp hnd).1
      rw [List.filter_cons_of_neg (by simp [hpa])]
      exact ih (List.nodup_cons.mp hnd).2 hrt
        (fun x hx hpx => huniq x (List.mem_cons_of_mem _ hx) hpx)

lemma flatMap_filter_map {α β : Type} (l : List α) (f : α → List β) (g : α → β)
    (h : ∀ a ∈ l, f a = [] ∨ f a = [g a]) :
    l.flatMap f = (l.filter (fun a => !(f a).isEmpty)).map g := by
  induction l with
  | nil => rfl
  | cons a t ih =>
    rw [List.flatMap_cons, List.filter_cons]
    rcases h a (List.mem_cons_self _ _) with ha | ha <;>
      simp [ha, ih (fun x hx => h x (List.mem_cons_of_mem _ hx))]

lemma map_indexOf_self (l : List Nat) (h : l.Nodup) :
    l.map (fun e => l.indexOf e) = List.range l.length := by
  induction l with
  | nil => rfl
  | cons a t ih =>
    rw [List.length_cons, List.range_succ_eq_map, List.map_cons, List.indexOf_cons_self]
    have hna : ∀ e ∈ t, e ≠ a := fun e he heq => (List.nodup_cons.mp h).1 (heq ▸ he)
    congr 1
    calc t.map (fun e => (a :: t).indexOf e)
        = t.map (fun e => (t.indexOf e).succ) :=
          List.map_congr_left (fun e he => List.indexOf_cons_ne t (hna e he).symm)
      _ = (t.map (fun e => t.indexOf e)).map Nat.succ := by rw [List.map_map]; rfl
      _ = List.map Nat.succ (List.range t.length) := by rw [ih (List.nodup_cons.mp h).2]

/-- Under well-formedness, a non-tombstoned grouped example contributes exactly
one row, namely its latest qualifying revision. -/
lemma selectedRevs_singleton {db : DB} {did : Nat} {ceil : Option Nat} {e : Nat}
    (hwf : WF db) (hne : selectedRevs db did ceil e ≠ []) :
    ∃ r, selectedRevs db did ceil e = [r] := by
  obtain ⟨hnd, huniq⟩ := hwf
  obtain ⟨r, hrmem⟩ := List.exists_mem_of_ne_nil _ hne
  have hrdb : r ∈ db.revisions := (List.mem_filter.mp hrmem).1
  have hpr := (List.mem_filter.mp hrmem).2
  refine ⟨r, filter_eq_singleton_of_unique hnd hrdb hpr ?_⟩
  intro x hx hpx
  simp only [Bool.and_eq_true, beq_iff_eq] at hpr hpx
  exact huniq x hx r hrdb (by rw [hpx.1.1, hpr.1.1])
    (Option.some_inj.mp ((hpr.1.2).symm.trans hpx.1.2)).symm

/-- C2 as amended: on a well-formed log, the exported `example_index` values
are the 0-based ranks of the surviving example ids among ALL example ids with
a qualifying revision at the ceiling (tombstoned ones included), listed as the
survivors occur in that ascending grouped-id order; consequently, whenever
every example with a qualifying revision survives the `DELETE` filter, the
indices are exactly 0, 1, ..., n-1.  (With a tombstone the indices can have a
gap, as the counterexample shows, since a tombstoned example still occupies a
rank; density is merely not guaranteed in that case.) -/
theorem C2_amended_rank_indices (db : DB) (did : Nat) (ceil : Option Nat) (hwf : WF db) :
    (snapshotRows db did ceil).map Row.index =
        ((snapshotIds db did ceil).filter
          (fun e => !(selectedRevs db did ceil e).isEmpty)).map
          (fun e => exampleIndex db did ceil e) ∧
      ((∀ e ∈ snapshotIds db did ceil, selectedRevs db did ceil e ≠ []) →
        (snapshotRows db did ceil).map Row.index =
          List.range (snapshotRows db did ceil).length) := by
  classical
  have hsplit : ∀ e ∈ snapshotIds db did ceil,
      ((selectedRevs db did ceil e).map (mkRow db did ceil e)).map Row.index = [] ∨
        ((selectedRevs db did ceil e).map (mkRow db did ceil e)).map Row.index =
          [exampleIndex db did ceil e] := by
    intro e he
    rcases hsel : selectedRevs db did ceil e with _ | ⟨r, t⟩
    · left
      rfl
    · right
      obtain ⟨r', hr'⟩ := selectedRevs_singleton hwf
        (by rw [hsel]; exact List.cons_ne_nil r t)
      have heq : r :: t = [r'] := hsel.symm.trans hr'
      rw [heq]
      rfl
  have hfc : ∀ e ∈ snapshotIds db did ceil,
      (!(((selectedRevs db did ceil e).map (mkRow db did ceil e)).map Row.index).isEmpty) =
        (!(selectedRevs db did ceil e).isEmpty) := by
    intro e _
    rcases hsel : selectedRevs db did ceil e with _ | ⟨r, t⟩ <;> rfl
  have ha : (snapshotRows db did ceil).map Row.index =
      ((snapshotIds db did ceil).filter
        (fun e => !(selectedRevs db did ceil e).isEmpty)).map
        (fun e => exampleIndex db did ceil e) := by
    rw [snapshotRows, List.map_flatMap, flatMap_filter_map _ _ _ hsplit,
      List.filter_congr hfc]
  refine ⟨ha, ?_⟩
  intro hall
  have hfilter : (snapshotIds db did ceil).filter
      (fun e => !(selectedRevs db did ceil e).isEmpty) = snapshotIds db did ceil := by
    apply List.filter_eq_self.mpr
    intro e he
    simp [List.isEmpty_iff, hall e he]
  have hmap : (snapshotRows db did ceil).map Row.index =
      (snapshotIds db did ceil).map (fun e => exampleIndex db did ceil e) := by
    rw [ha, hfilter]
  have hlen : (snapshotRows db did ceil).length = (snapshotIds db did ceil).length := by
    have h1 := congrArg List.length hmap
    rw [List.length_map, List.length_map] at h1
    exact h1
  rw [hmap, hlen]
  exact map_indexOf_self _ (nodup_snapshotIds db did ceil)

/-- Witness for the amended C2: in the tombstoned `dbC2` the indices are the
survivors' ranks among all grouped examples, and in the tombstone-free `dbC2w`
the exported indices are exactly `range n`. -/
theorem C2_amended_witness :
    (snapshotRows dbC2 1 none).map Row.index =
        ((snapshotIds dbC2 1 none).filter
          (fun e => !(selectedRevs dbC2 1 none e).isEmpty)).map
          (fun e => exampleIndex dbC2 1 none e) ∧
      (snapshotRows dbC2w 1 none).map Row.index =
        List.range (snapshotRows dbC2w 1 none).length :=
  ⟨(C2_amended_rank_indices dbC2 1 none (by decide)).1,
    (C2_amended_rank_indices dbC2w 1 none (by decide)).2 (by decide)⟩

/-- C3 fails on the code: in `dbC3` no dataset version with id 99 exists, yet
the export with explicit version id 99 does not answer `NotFound` — it
succeeds and returns exactly the latest snapshot.  The handler never checks
that the supplied version id exists or belongs to the dataset; the id is used
only as a numeric ceiling. -/
theorem C3_counterexample :
    get_dataset_download_csv dbC3 1 (some 99) =
        .ok [⟨[("a", 1), ("__example_index__", 0)], 0⟩] ∧
      get_dataset_download_csv dbC3 1 (some 99) = get_dataset_download_csv dbC3 1 none ∧
      dbC3.versions.all (fun v => !(v.1 == 99)) = true :=
  ⟨rfl, rfl, rfl⟩

/-- C3 as amended: snapshot export answers `NotFound` when the dataset row is
missing (or its stored name is falsy); an explicitly supplied version id is
never validated — it acts purely as a numeric ceiling, so a version id at
least as large as every revision's version id (in particular any nonexistent
too-large id) silently yields the same result as the latest-version export. -/
theorem C3_amended_version_ceiling (db : DB) (did V : Nat) :
    (nameFalsy (findName db did) = true →
      get_dataset_download_csv db did (some V) = .error .datasetNotFound) ∧
      ((∀ r ∈ db.revisions, r.versionId ≤ V) →
        get_dataset_download_csv db did (some V) = get_dataset_download_csv db did none) := by
  constructor
  · intro h
    unfold get_dataset_download_csv
    rw [if_pos h]
  · intro h
    have hpool : revisionPool db did (some V) = revisionPool db did none := by
      unfold revisionPool
      apply List.filter_congr
      intro r _
      have : qualifiesB (some V) r = qualifiesB none r := by
        simp [qualifiesB, h r (by assumption)]
      rw [this]
    have hids : snapshotIds db did (some V) = snapshotIds db did none := by
      unfold snapshotIds
      rw [hpool]
    have hmv : ∀ e, maxVer db did (some V) e = maxVer db did none e := by
      intro e
      unfold maxVer
      rw [hpool]
    have hsel : ∀ e, selectedRevs db did (some V) e = selectedRevs db did none e := by
      intro e
      unfold selectedRevs
      apply List.filter_congr
      intro r _
      rw [hmv e]
    have hrows : snapshotRows db did (some V) = snapshotRows db did none := by
      unfold snapshotRows
      rw [hids]
      have hf : (fun e => (selectedRevs db did (some V) e).map (mkRow db did (some V) e)) =
          fun e => (selectedRevs db did none e).map (mkRow db did none e) := by
        funext e
        rw [hsel e]
        have : mkRow db did (some V) e = mkRow db did none e := by
          unfold mkRow exampleIndex
          rw [hids]
        rw [this]
      rw [hf]
    unfold get_dataset_download_csv
    rw [hrows]

/-- Witness for the amended C3: a missing dataset answers `NotFound`, and in
`dbC3` the nonexistent ceiling 99 dominates every revision and reproduces the
latest snapshot. -/
theorem C3_amended_witness :
    get_dataset_download_csv dbEmpty 5 (some 0) = .error .datasetNotFound ∧
      get_dataset_download_csv dbC3 1 (some 99) = get_dataset_download_csv dbC3 1 none :=
  ⟨(C3_amended_version_ceiling dbEmpty 5 0).1 (by decide),
    (C3_amended_version_ceiling dbC3 1 99).2 (by decide)⟩

/-- C4: the upsert inserts the given values when no row with the constraint
key (experiment_run_id, name) exists, and on a key collision updates the
existing row with the new values, returning the stored row; upserting twice
with the same key and different values leaves exactly one stored row for that
key, holding the second write's values (last-writer-wins). -/
theorem C4_upsert_last_writer_wins (table : List AnnotationRow) (v w : AnnotationRow)
    (hkey : w.experimentRunId = v.experimentRunId ∧ w.name = v.name)
    (hno : ∀ t ∈ table, keyMatches t v = false) :
    (upsert table v).1 = table ++ [v] ∧ (upsert table v).2 = v ∧
      (upsert (table ++ [v]) w).2 = w ∧
      ((upsert (table ++ [v]) w).1).filter (fun t => keyMatches t v) = [w] := by
  obtain ⟨hkr, hkn⟩ := hkey
  have hfind1 : table.find? (fun t => keyMatches t v) = none :=
    List.find?_eq_none.mpr (fun t ht => by simp [hno t ht])
  have h1 : upsert table v = (table ++ [v], v) := by
    unfold upsert
    rw [hfind1]
  have hkequiv : ∀ t, keyMatches t w = keyMatches t v := by
    intro t
    simp [keyMatches, hkr, hkn]
  have hvw : keyMatches v w = true := by
    simp [keyMatches, hkr, hkn]
  have hfind2 : (table ++ [v]).find? (fun t => keyMatches t w) = some v := by
    rw [List.find?_append]
    have hn : table.find? (fun t => keyMatches t w) = none :=
      List.find?_eq_none.mpr (fun t ht => by rw [hkequiv t]; simp [hno t ht])
    rw [hn, Option.none_or]
    simp [List.find?, hvw]
  have happly : applyUpdate v w = w := by
    unfold applyUpdate
    rw [← hkr, ← hkn]
  have h2 : upsert (table ++ [v]) w =
      ((table ++ [v]).map (fun u => if keyMatches u w then applyUpdate u w else u),
        applyUpdate v w) := by
    unfold upsert
    rw [hfind2]
  refine ⟨by rw [h1], by rw [h1], by rw [h2]; exact happly, ?_⟩
  rw [h2]
  have hmapt : table.map (fun u => if keyMatches u w then applyUpdate u w else u) = table := by
    have hpt : ∀ u ∈ table, (if keyMatches u w then applyUpdate u w else u) = u := by
      intro u hu
      rw [hkequiv u, hno u hu]
      simp
    rw [List.map_congr_left hpt]
    simp
  have hmapv : [v].map (fun u => if keyMatches u w then applyUpdate u w else u) = [w] := by
    simp [hvw, happly]
  rw [List.map_append, hmapt, hmapv, List.filter_append]
  have hft : table.filter (fun t => keyMatches t v) = [] :=
    List.filter_eq_nil_iff.mpr (fun t ht => by simp [hno t ht])
  rw [hft]
  have hwv : keyMatches w v = true := by
    simp [keyMatches, hkr, hkn]
  simp [List.filter, hwv]

/-- Witness for C4: the two-write scenario on an empty table with `rowA` then
`rowB` (same key, different score). -/
theorem C4_witness :
    (upsert [] rowA).1 = [rowA] ∧ (upsert [] rowA).2 = rowA ∧
      (upsert [rowA] rowB).2 = rowB ∧
      ((upsert [rowA] rowB).1).filter (fun t => keyMatches t rowA) = [rowB] := by
  have h := C4_upsert_last_writer_wins [] rowA rowB (by decide) (by decide)
  simpa using h

/-- C5: a validated upload that reaches submission while the admission queue
is at capacity is rejected with the 429 Capacity outcome, the open record
generator is closed, the queue is unchanged, the database is unchanged, and
consequently every subsequent snapshot is exactly what it was before the
rejected job. -/
theorem C5_capacity_rejection (db : DB) (cap : Nat) (queue : List UploadJob)
    (action : DatasetAction) (name : String) (rows : List (List String))
    (iks oks mks : List String)
    (hov : checkRoleOverlap iks oks mks = .ok ())
    (hconf : (action == DatasetAction.create && db.datasets.any (fun d => d.2 == name)) = false)
    (hcsv : ∃ fields, process_csv rows = .ok fields ∧
      check_keys_exist fields iks oks mks = .ok ())
    (hfull : cap ≤ queue.length) :
    post_datasets_upload db cap queue action name rows iks oks mks =
        ⟨.tooManyRequests, db, queue, true⟩ ∧
      ∀ did ceil, snapshotRows
          (post_datasets_upload db cap queue action name rows iks oks mks).db did ceil =
        snapshotRows db did ceil := by
  obtain ⟨fields, hpf, hck⟩ := hcsv
  have henq : enqueueOp cap queue ⟨action, name, rows, iks, oks, mks⟩ = none := by
    unfold enqueueOp
    rw [if_neg (Nat.not_lt.mpr hfull)]
  have hmain : post_datasets_upload db cap queue action name rows iks oks mks =
      ⟨.tooManyRequests, db, queue, true⟩ := by
    simp only [post_datasets_upload, hov, hconf, hpf, hck, henq, Bool.false_eq_true,
      if_false]
  exact ⟨hmain, fun did ceil => by rw [hmain]⟩

/-- Witness for C5: capacity-zero queue rejects a fully validated upload. -/
theorem C5_witness :
    post_datasets_upload dbEmpty 0 [] DatasetAction.append "n" [["a"]] ["a"] [] [] =
      ⟨.tooManyRequests, dbEmpty, [], true⟩ :=
  (C5_capacity_rejection dbEmpty 0 [] DatasetAction.append "n" [["a"]] ["a"] [] []
    rfl rfl ⟨["a"], rfl, rfl⟩ (Nat.le_refl 0)).1

lemma mem_foldl_insertKeys (l : List String) (acc : List String) (x : String) :
    x ∈ l.foldl (fun acc y => if y ∈ acc then acc else acc ++ [y]) acc ↔
      x ∈ acc ∨ x ∈ l := by
  induction l generalizing acc with
  | nil => simp
  | cons a t ih =>
    rw [List.foldl_cons, ih]
    by_cases ha : a ∈ acc
    · simp only [if_pos ha]
      constructor
      · rintro (h | h)
        · exact Or.inl h
        · exact Or.inr (List.mem_cons_of_mem _ h)
      · rintro (h | h)
        · exact Or.inl h
        · rcases List.mem_cons.mp h with h | h
          · exact Or.inl (h ▸ ha)
          · exact Or.inr h
    · simp only [if_neg ha, List.mem_append, List.mem_singleton]
      constructor
      · rintro ((h | h) | h)
        · exact Or.inl h
        · exact Or.inr (List.mem_cons.mpr (Or.inl h))
        · exact Or.inr (List.mem_cons_of_mem _ h)
      · rintro (h | h)
        · exact Or.inl (Or.inl h)
        · rcases List.mem_cons.mp h with h | h
          · exact Or.inl (Or.inr h)
          · exact Or.inr h

lemma mem_pyCounterKeys {l : List String} {x : String} :
    x ∈ pyCounterKeys l ↔ x ∈ l := by
  unfold pyCounterKeys
  rw [mem_foldl_insertKeys]
  simp

lemma bestFold_count (l : List String) :
    ∀ (keys : List String) (acc : Option (String × Nat)),
      (∀ q, acc = some q → q.2 = l.count q.1) →
      ∀ p, keys.foldl (bestCount l) acc = some p → p.2 = l.count p.1 := by
  intro keys
  induction keys with
  | nil =>
    intro acc hacc p hp
    exact hacc p hp
  | cons k t ih =>
    intro acc hacc p hp
    rw [List.foldl_cons] at hp
    refine ih _ ?_ p hp
    intro q hq
    cases acc with
    | none =>
      simp only [bestCount, Option.some.injEq] at hq
      rw [← hq]
    | some a =>
      obtain ⟨k0, n0⟩ := a
      simp only [bestCount] at hq
      split_ifs at hq <;> simp only [Option.some.injEq] at hq <;> rw [← hq]
      exact hacc (k0, n0) rfl

lemma bestFold_mono (l : List String) :
    ∀ (keys : List String) (q : String × Nat) (p : String × Nat),
      keys.foldl (bestCount l) (some q) = some p → q.2 ≤ p.2 := by
  intro keys
  induction keys with
  | nil =>
    intro q p hp
    simp only [List.foldl_nil, Option.some.injEq] at hp
    rw [hp]
  | cons k t ih =>
    intro q p hp
    rw [List.foldl_cons] at hp
    obtain ⟨k0, n0⟩ := q
    simp only [bestCount] at hp
    split_ifs at hp with hlt
    · exact le_trans (le_of_lt hlt) (ih _ _ hp)
    · exact ih _ _ hp

lemma bestFold_ge (l : List String) :
    ∀ (keys : List String) (acc : Option (String × Nat)) (p : String × Nat),
      keys.foldl (bestCount l) acc = some p → ∀ k ∈ keys, l.count k ≤ p.2 := by
  intro keys
  induction keys with
  | nil => simp
  | cons k t ih =>
    intro acc p hp k' hk'
    rw [List.foldl_cons] at hp
    rcases List.mem_cons.mp hk' with hk' | hk'
    · rw [hk']
      have hstep : ∃ q, bestCount l acc k = some q ∧ l.count k ≤ q.2 := by
        cases acc with
        | none => exact ⟨(k, l.count k), rfl, le_refl _⟩
        | some a =>
          obtain ⟨k0, n0⟩ := a
          simp only [bestCount]
          split_ifs with hlt
          · exact ⟨(k, l.count k), rfl, le_refl _⟩
          · exact ⟨(k0, n0), rfl, Nat.not_lt.mp hlt⟩
      obtain ⟨q, hq, hle⟩ := hstep
      rw [hq] at hp
      exact le_trans hle (bestFold_mono l t q p hp)
    · exact ih _ p hp k' hk'

lemma bestFold_some (l : List String) :
    ∀ (keys : List String) (q : String × Nat),
      ∃ p, keys.foldl (bestCount l) (some q) = some p := by
  intro keys
  induction keys with
  | nil =>
    intro q
    exact ⟨q, rfl⟩
  | cons k t ih =>
    intro q
    rw [List.foldl_cons]
    obtain ⟨k0, n0⟩ := q
    simp only [bestCount]
    split_ifs <;> exact ih _

lemma pyMostCommon1_spec {l : List String} {h : String} {n : Nat}
    (hmc : pyMostCommon1 l = some (h, n)) :
    n = l.count h ∧ ∀ k ∈ l, l.count k ≤ n := by
  unfold pyMostCommon1 at hmc
  constructor
  · exact bestFold_count l (pyCounterKeys l) none (by intro q hq; cases hq) (h, n) hmc
  · intro k hk
    exact bestFold_ge l (pyCounterKeys l) none (h, n) hmc k (mem_pyCounterKeys.mpr hk)

lemma pyMostCommon1_isSome {l : List String} (hne : l ≠ []) :
    ∃ p, pyMostCommon1 l = some p := by
  unfold pyMostCommon1
  have hkeys : pyCounterKeys l ≠ [] := by
    obtain ⟨x, hx⟩ := List.exists_mem_of_ne_nil _ hne
    exact List.ne_nil_of_mem (mem_pyCounterKeys.mpr hx)
  cases hk : pyCounterKeys l with
  | nil => exact absurd hk hkeys
  | cons k t =>
    rw [List.foldl_cons]
    exact bestFold_some l t _

lemma post_db_unchanged (db : DB) (cap : Nat) (queue : List UploadJob)
    (action : DatasetAction) (name : String) (rows : List (List String))
    (iks oks mks : List String) :
    (post_datasets_upload db cap queue action name rows iks oks mks).db = db := by
  unfold post_datasets_upload
  repeat' split
  all_goals rfl

lemma post_queue_unchanged_of_csv_error (db : DB) (cap : Nat) (queue : List UploadJob)
    (action : DatasetAction) (name : String) (rows : List (List String))
    (iks oks mks : List String) (m : String) (hm : process_csv rows = .error m) :
    (post_datasets_upload db cap queue action name rows iks oks mks).queue = queue := by
  unfold post_datasets_upload
  repeat' split
  all_goals first
    | rfl
    | simp_all

/-- C6: `_process_csv` rejects a file with no header row, and rejects a
duplicated column header with an error naming a column that genuinely occurs
more than once in the header; either rejection happens during validation,
before anything reaches the database or the admission queue — the database is
never touched by the upload handler, and on a CSV validation error nothing is
enqueued. -/
theorem C6_csv_header_validation (rows : List (List String)) (db : DB) (cap : Nat)
    (queue : List UploadJob) (action : DatasetAction) (name : String)
    (iks oks mks : List String) :
    (rows.head? = none → process_csv rows = .error "Missing CSV column header") ∧
      (∀ fields, rows.head? = some fields → (∃ c, 1 < fields.count c) →
        ∃ h, process_csv rows = .error ("Duplicated column header in CSV file: " ++ h) ∧
          1 < fields.count h) ∧
      (post_datasets_upload db cap queue action name rows iks oks mks).db = db ∧
      (∀ m, process_csv rows = .error m →
        (post_datasets_upload db cap queue action name rows iks oks mks).queue = queue) := by
  refine ⟨?_, ?_, post_db_unchanged db cap queue action name rows iks oks mks,
    fun m hm => post_queue_unchanged_of_csv_error db cap queue action name rows
      iks oks mks m hm⟩
  · intro h
    unfold process_csv
    rw [h]
  · intro fields hf hdup
    obtain ⟨c, hc⟩ := hdup
    have hcmem : c ∈ fields := List.count_pos_iff.mp (Nat.lt_trans Nat.zero_lt_one hc)
    have hfne : fields ≠ [] := List.ne_nil_of_mem hcmem
    obtain ⟨⟨h0, n0⟩, hmc⟩ := pyMostCommon1_isSome hfne
    obtain ⟨hn0, hge⟩ := pyMostCommon1_spec hmc
    have h1n : 1 < n0 := lt_of_lt_of_le hc (hge c hcmem)
    refine ⟨h0, ?_, hn0 ▸ h1n⟩
    simp only [process_csv, hf, hmc]
    rw [if_pos h1n]

/-- Witness for C6: the empty upload is rejected for a missing header, and a
header repeating the column `q` is rejected naming `q`. -/
theorem C6_witness :
    process_csv ([] : List (List String)) = .error "Missing CSV column header" ∧
      (∃ h, process_csv [["q", "q"]] =
          .error ("Duplicated column header in CSV file: " ++ h) ∧
        1 < (["q", "q"] : List String).count h) ∧
      (post_datasets_upload dbEmpty 1 [] DatasetAction.append "n" [["q", "q"]]
        [] [] []).queue = [] :=
  ⟨(C6_csv_header_validation [] dbEmpty 1 [] DatasetAction.append "n" [] [] []).1 rfl,
    (C6_csv_header_validation [["q", "q"]] dbEmpty 1 [] DatasetAction.append "n"
      [] [] []).2.1 ["q", "q"] rfl ⟨"q", by decide⟩,
    (C6_csv_header_validation [["q", "q"]] dbEmpty 1 [] DatasetAction.append "n"
      [] [] []).2.2.2 "Duplicated column header in CSV file: q" (by decide)⟩

lemma setInter_isEmpty_iff {a b : List String} :
    (setInter a b).isEmpty = true ↔ ∀ x ∈ a, x ∉ b := by
  rw [setInter, List.isEmpty_iff, List.filter_eq_nil_iff]
  simp

lemma setDiff_isEmpty_iff {a b : List String} :
    (setDiff a b).isEmpty = true ↔ a ⊆ b := by
  rw [setDiff, List.isEmpty_iff, List.filter_eq_nil_iff, List.subset_def]
  simp

/-- C7: the composed column-role validation (the pairwise-overlap checks of
`_parse_form_data` followed by `_check_keys_exist`) succeeds exactly when the
three requested role sets are pairwise disjoint and each is contained in the
discovered column headers; in every other case it fails with a Malformed
error. -/
theorem C7_role_validation (columnHeaders iks oks mks : List String) :
    roleValidation columnHeaders iks oks mks = .ok () ↔
      ((∀ x ∈ iks, x ∉ oks) ∧ (∀ x ∈ iks, x ∉ mks) ∧ (∀ x ∈ oks, x ∉ mks) ∧
        iks ⊆ columnHeaders ∧ oks ⊆ columnHeaders ∧ mks ⊆ columnHeaders) := by
  cases h1 : (setInter iks oks).isEmpty <;>
    cases h2 : (setInter iks mks).isEmpty <;>
      cases h3 : (setInter oks mks).isEmpty <;>
        cases h4 : (setDiff iks columnHeaders).isEmpty <;>
          cases h5 : (setDiff oks columnHeaders).isEmpty <;>
            cases h6 : (setDiff mks columnHeaders).isEmpty <;>
  simp_all [roleValidation, checkRoleOverlap, check_keys_exist,
    ← setInter_isEmpty_iff, ← setDiff_isEmpty_iff]

/-- C8 names a real divergence: for an ASCII value with no cased characters,
such as "123", that is not a recognized content type or encoding, the
`_missing_` guard `not v.islower()` is true (Python `islower` is false on
uncased strings) while `v.lower()` equals `v`, so the enum constructor
re-enters itself with the same argument forever: for every recursion budget
the parse returns no answer at all — neither acceptance nor the Malformed
`ValueError` the claim describes. -/
theorem C8_uncased_value_diverges (fuel : Nat) :
    parseFileContentType fuel "123" = none ∧
      parseFileContentEncoding fuel (some "123") = none := by
  induction fuel with
  | zero => exact ⟨rfl, rfl⟩
  | succ n ih =>
    have hct : ctValue? "123" = none := by decide
    have henc : encValue? "123" = none := by decide
    have hg : missingGuard "123" = true := by decide
    have hl : pyLower "123" = "123" := by decide
    constructor
    · simp only [parseFileContentType, hct, hg, hl, if_true]
      exact ih.1
    · simp only [parseFileContentEncoding, henc, hg, hl, if_true]
      exact ih.2

lemma lookup_append (l₁ l₂ : List (String × Nat)) (k : String) :
    (l₁ ++ l₂).lookup k = ((l₁.lookup k).or (l₂.lookup k)) := by
  induction l₁ with
  | nil => simp [List.lookup]
  | cons kv t ih =>
    obtain ⟨k', v'⟩ := kv
    cases h : (k == k') with
    | true => simp [List.lookup, h]
    | false => simp [List.lookup, h, ih]

lemma lookup_eq_none_of_no_key {l : List (String × Nat)} {k : String}
    (h : ∀ kv ∈ l, kv.1 ≠ k) : l.lookup k = none := by
  induction l with
  | nil => rfl
  | cons kv t ih =>
    obtain ⟨k', v'⟩ := kv
    have hk' : (k == k') = false := by
      simp only [beq_eq_false_iff_ne, ne_eq]
      intro hc
      exact h (k', v') (List.mem_cons_self _ _) (by simp [hc])
    simp only [List.lookup, hk']
    exact ih (fun kv hkv => h kv (List.mem_cons_of_mem _ hkv))

lemma any_key_eq_false_iff {l : List (String × Nat)} {k : String} :
    l.any (fun kv => kv.1 == k) = false ↔ ∀ kv ∈ l, kv.1 ≠ k := by
  rw [← Bool.not_eq_true, List.any_eq_true]
  constructor
  · intro h kv hkv hk
    exact h ⟨kv, hkv, by simp [hk]⟩
  · rintro h ⟨kv, hkv, hbeq⟩
    exact h kv hkv (by simpa using hbeq)

lemma lookup_filter_drop {a b : List (String × Nat)} {k : String}
    (h : b.any (fun kv => kv.1 == k) = true) :
    (a.filter (fun kv => !(b.any (fun kv2 => kv2.1 == kv.1)))).lookup k = none := by
  refine lookup_eq_none_of_no_key ?_
  intro kv hkv hk
  have hpred := (List.mem_filter.mp hkv).2
  rw [hk] at hpred
  rw [h] at hpred
  cases hpred

lemma lookup_filter_keep {a b : List (String × Nat)} {k : String}
    (h : b.any (fun kv => kv.1 == k) = false) :
    (a.filter (fun kv => !(b.any (fun kv2 => kv2.1 == kv.1)))).lookup k = a.lookup k := by
  induction a with
  | nil => rfl
  | cons kv t ih =>
    obtain ⟨k', v'⟩ := kv
    cases hk : (k == k') with
    | true =>
      have hkeep : (b.any (fun kv2 => kv2.1 == k')) = false := by
        have hkk : k' = k := (beq_iff_eq.mp hk).symm
        rw [hkk, h]
      simp [List.filter_cons, List.lookup, hkeep, hk]
    | false =>
      cases hb : (b.any (fun kv2 => kv2.1 == k')) with
      | true => simp [List.filter_cons, List.lookup, hb, hk, ih]
      | false => simp [List.filter_cons, List.lookup, hb, hk, ih]

lemma lookup_pyDictMerge (a b : List (String × Nat)) (k : String) :
    (pyDictMerge a b).lookup k =
      if b.any (fun kv => kv.1 == k) then b.lookup k else a.lookup k := by
  unfold pyDictMerge
  rw [lookup_append]
  cases hb : b.any (fun kv => kv.1 == k) with
  | true =>
    rw [if_pos rfl]
    rw [lookup_filter_drop hb, Option.none_or]
  | false =>
    rw [if_neg (by simp)]
    rw [lookup_filter_keep hb]
    rw [lookup_eq_none_of_no_key (any_key_eq_false_iff.mp hb), Option.or_none]

lemma lookup_isSome_eq_any (l : List (String × Nat)) (k : String) :
    (l.lookup k).isSome = l.any (fun kv => kv.1 == k) := by
  induction l with
  | nil => rfl
  | cons kv t ih =>
    obtain ⟨k', v'⟩ := kv
    cases hk : (k == k') with
    | true =>
      have : (k' == k) = true := by
        rw [beq_iff_eq]
        exact (beq_iff_eq.mp hk).symm
      simp [List.lookup, hk, this]
    | false =>
      have : (k' == k) = false := by
        simp only [beq_eq_false_iff_ne, ne_eq] at hk ⊢
        exact fun hc => hk hc.symm
      simp [List.lookup, hk, this, ih]

lemma lookup_pyDictMerge_or (a b : List (String × Nat)) (k : String) :
    (pyDictMerge a b).lookup k = ((b.lookup k).or (a.lookup k)) := by
  rw [lookup_pyDictMerge]
  cases hb : b.any (fun kv => kv.1 == k) with
  | true =>
    rw [if_pos rfl]
    have : (b.lookup k).isSome = true := by rw [lookup_isSome_eq_any, hb]
    obtain ⟨v, hv⟩ := Option.isSome_iff_exists.mp this
    rw [hv]
    rfl
  | false =>
    rw [if_neg (by simp)]
    have : (b.lookup k) = none := by
      have h1 := lookup_isSome_eq_any b k
      rw [hb] at h1
      exact Option.not_isSome_iff_eq_none.mp (by rw [h1]; simp)
    rw [this, Option.none_or]

/-- C9: in the exported record the payloads are merged metadata first, then
input, then output, so on a shared key the input value overrides the metadata
value and the output value overrides both; the record additionally carries the
example index under the reserved key `__example_index__`. -/
theorem C9_merge_precedence (m i o : List (String × Nat)) (idx : Nat) (k : String)
    (hk : ¬(k = "__example_index__")) :
    (mkRecord m i o idx).lookup "__example_index__" = some idx ∧
      (mkRecord m i o idx).lookup k =
        ((o.lookup k).or ((i.lookup k).or (m.lookup k))) := by
  constructor
  · unfold mkRecord
    rw [lookup_pyDictMerge_or]
    rfl
  · unfold mkRecord
    rw [lookup_pyDictMerge_or]
    have hhide : (([("__example_index__", idx)] : List (String × Nat)).lookup k) = none := by
      refine lookup_eq_none_of_no_key ?_
      intro kv hkv
      rcases List.mem_singleton.mp hkv with rfl
      exact fun hc => hk hc.symm
    rw [hhide, Option.none_or, lookup_pyDictMerge_or, lookup_pyDictMerge_or]

/-- Witness for C9: all three payloads bind the key `x`; the merged record
resolves `x` through the override chain and carries the index. -/
theorem C9_witness :
    (mkRecord [("x", 1)] [("x", 2)] [("x", 3)] 0).lookup "__example_index__" = some 0 ∧
      (mkRecord [("x", 1)] [("x", 2)] [("x", 3)] 0).lookup "x" =
        ((([("x", 3)] : List (String × Nat)).lookup "x").or
          ((([("x", 2)] : List (String × Nat)).lookup "x").or
            (([("x", 1)] : List (String × Nat)).lookup "x"))) :=
  C9_merge_precedence [("x", 1)] [("x", 2)] [("x", 3)] 0 "x" (by decide)

/-- C10: an absent content-encoding header parses to the `none` member exactly
as the explicit string "none" does, and the `none` encoding passes the payload
bytes to the CSV decoder without any decompression. -/
theorem C10_missing_encoding_is_none (fuel : Nat) (gz df : List Nat → List Nat)
    (content : List Nat) :
    parseFileContentEncoding (fuel + 1) none = some (.ok FileContentEncoding.NONE) ∧
      parseFileContentEncoding (fuel + 1) (some "none") =
        some (.ok FileContentEncoding.NONE) ∧
      csvDecompress FileContentEncoding.NONE gz df content = content :=
  ⟨rfl, by simp [parseFileContentEncoding, encValue?], rfl⟩

end Phoenix
